import Mathlib

/-!
Verification of the carbon_chain emissions pipeline and serving layer.

The definitions below are a shallow embedding of the repository's code:

* `src/scripts/preprocessing.py` — regex extraction of technical efficiency,
  year-to-last-day reconciliation, date-format filtering, final date
  formatting;
* `src/scripts/load_data.py` — spreadsheet loading and concatenation;
* `src/backend/prepare_db_data.py` — column projection and the `process_data`
  pipeline;
* `src/backend/app/api/endpoints.py` with
  `src/backend/app/models/models.py` — the Ship record store operations.

Cell values are modelled as text; numeric values as rationals (exact
decimals, standing for the floats the code produces).  Raised exceptions are
modelled by `Except` errors; the concrete Python exception class is
abstracted.
-/

deriving instance DecidableEq for Except

namespace CarbonChain

/-! ## Small character / digit utilities -/

/-- Numeric value of a list of ASCII digit characters (most significant
first), as Python's `int` computes it for a digit string. -/
def natOfDigits (l : List Char) : Nat :=
  l.foldl (fun a c => 10 * a + (c.toNat - 48)) 0

/-- Two-character zero-padded decimal rendering, as `strftime` with a
two-digit field produces for values below 100. -/
def pad2 (n : Nat) : List Char :=
  [Nat.digitChar (n / 10 % 10), Nat.digitChar (n % 10)]

/-- Four-character zero-padded decimal rendering, as `strftime` with `%Y`
produces for the four-digit years handled here. -/
def pad4 (n : Nat) : List Char :=
  [Nat.digitChar (n / 1000 % 10), Nat.digitChar (n / 100 % 10),
   Nat.digitChar (n / 10 % 10), Nat.digitChar (n % 10)]

/-- Split a character list at every occurrence of `sep` (the field
separator used when parsing slash- or dash-separated dates). -/
def splitCh (sep : Char) : List Char → List (List Char)
  | [] => [[]]
  | c :: cs =>
    match splitCh sep cs with
    | [] => [[]]
    | r :: rs => if c = sep then [] :: r :: rs else (c :: r) :: rs

/-! ## Calendar model

Python's `datetime` and pandas both use the proleptic Gregorian calendar. -/

/-- A calendar date (year, month, day). -/
structure Date where
  year : Nat
  month : Nat
  day : Nat
deriving DecidableEq

/-- Gregorian leap-year rule. -/
def isLeapB (y : Nat) : Bool :=
  (y % 4 = 0 && y % 100 ≠ 0) || y % 400 = 0

/-- Number of days in a month of a given year. -/
def daysInMonth (y m : Nat) : Nat :=
  if m = 2 then (if isLeapB y then 29 else 28)
  else if m = 4 ∨ m = 6 ∨ m = 9 ∨ m = 11 then 30
  else 31

/-- Calendar validity of the month/day pair of a date. -/
def dateValidB (dt : Date) : Bool :=
  1 ≤ dt.month && dt.month ≤ 12 && 1 ≤ dt.day && dt.day ≤ daysInMonth dt.year dt.month

/-- Whether a date at midnight is representable as a pandas nanosecond
timestamp (the range `pd.Timestamp.min` = 1677-09-21T00:12 to
`pd.Timestamp.max` = 2262-04-11T23:47; midnight is representable from
1677-09-22 through 2262-04-11).  `pd.to_datetime` rejects, or with
`errors="coerce"` nulls, dates outside this range. -/
def tsInBoundsB (dt : Date) : Bool :=
  (1678 ≤ dt.year && dt.year ≤ 2261) ||
  (dt.year = 1677 && (10 ≤ dt.month || (dt.month = 9 && 22 ≤ dt.day))) ||
  (dt.year = 2262 && (dt.month ≤ 3 || (dt.month = 4 && dt.day ≤ 11)))

/-! ## Python-style numeric parsing -/

/-- Python's `int(str)` on text, as used by `year_to_last_day`: surrounding
whitespace is stripped, then an optional sign followed by at least one
ASCII digit.  (Unicode digits and underscore separators are out of scope.) -/
def pyInt? (s : String) : Option Int :=
  let t := ((s.data.dropWhile Char.isWhitespace).reverse.dropWhile Char.isWhitespace).reverse
  match t with
  | '+' :: ds =>
    if ds ≠ [] ∧ ds.all Char.isDigit then some (natOfDigits ds) else none
  | '-' :: ds =>
    if ds ≠ [] ∧ ds.all Char.isDigit then some (-(natOfDigits ds : Int)) else none
  | ds =>
    if ds ≠ [] ∧ ds.all Char.isDigit then some (natOfDigits ds) else none

/-- Mantissa of a Python float literal: `digits [. [digits]]` or `. digits`.
Returns the value and the remaining characters. -/
def pyFloatMantissa? (l : List Char) : Option (Rat × List Char) :=
  let intPart := l.takeWhile Char.isDigit
  let rest := l.dropWhile Char.isDigit
  match rest with
  | '.' :: r2 =>
    let frac := r2.takeWhile Char.isDigit
    if intPart = [] ∧ frac = [] then none
    else some ((natOfDigits intPart : Rat) + (natOfDigits frac : Rat) / (10 : Rat) ^ frac.length,
               r2.dropWhile Char.isDigit)
  | _ =>
    if intPart = [] then none else some ((natOfDigits intPart : Rat), rest)

/-- Optional exponent part of a Python float literal. -/
def pyFloatExp? (l : List Char) : Option (Int × List Char) :=
  match l with
  | 'e' :: r | 'E' :: r =>
    match r with
    | '+' :: ds => if ds ≠ [] ∧ ds.all Char.isDigit then some ((natOfDigits ds : Int), []) else none
    | '-' :: ds => if ds ≠ [] ∧ ds.all Char.isDigit then some (-(natOfDigits ds : Int), []) else none
    | ds => if ds ≠ [] ∧ ds.all Char.isDigit then some ((natOfDigits ds : Int), []) else none
  | [] => some (0, [])
  | _ => none

/-- Python's `float(str)`, as pandas `astype(float)` applies it to each cell
of a text column: strip whitespace, optional sign, decimal mantissa,
optional exponent.  (The special spellings `inf` and `nan` and underscore
separators are out of scope.)  The value is the exact rational the decimal
text denotes. -/
def pyFloat? (s : String) : Option Rat :=
  let t := ((s.data.dropWhile Char.isWhitespace).reverse.dropWhile Char.isWhitespace).reverse
  let signAndBody : Rat × List Char :=
    match t with
    | '+' :: r => (1, r)
    | '-' :: r => (-1, r)
    | r => (1, r)
  match pyFloatMantissa? signAndBody.2 with
  | none => none
  | some (m, rest) =>
    match pyFloatExp? rest with
    | none => none
    | some (e, _) => some (signAndBody.1 * m * (10 : Rat) ^ e)

/-! ## Regex extraction for `Technical efficiency`

`extract_technical_efficiency_value` in `src/scripts/preprocessing.py` runs
`df[source].str.extract("(\d+\.\d+)").astype(float)`: the first (leftmost)
substring matching `digits '.' digits` is captured, or the cell becomes
null on no match.  At a given start position the first `digits` group
greedily takes the maximal digit run, which must be followed by `'.'` and
at least one further digit; no backtracking can produce a different match
at that position, so the leftmost such position gives the regex match. -/

/-- Attempt a `\d+\.\d+` match anchored at the head of the list; returns
the integer-part digits and fraction-part digits of the match. -/
def matchDecAt (cs : List Char) : Option (List Char × List Char) :=
  let d1 := cs.takeWhile Char.isDigit
  if d1 = [] then none
  else
    match cs.dropWhile Char.isDigit with
    | '.' :: rest =>
      let d2 := rest.takeWhile Char.isDigit
      if d2 = [] then none else some (d1, d2)
    | _ => none

/-- Leftmost `\d+\.\d+` match in a character list. -/
def findDec : List Char → Option (List Char × List Char)
  | [] => none
  | c :: cs =>
    match matchDecAt (c :: cs) with
    | some p => some p
    | none => findDec cs

/-- Float value of a matched decimal `d1 "." d2`. -/
def decValue (p : List Char × List Char) : Rat :=
  (natOfDigits p.1 : Rat) + (natOfDigits p.2 : Rat) / (10 : Rat) ^ p.2.length

/-- The per-cell behaviour of `extract_technical_efficiency_value`: the
float value of the first `\d+\.\d+` match, or null when no substring
matches. -/
def extractTE (s : String) : Option Rat :=
  (findDec s.data).map decValue

/-! ## Date parsing and formatting -/

/-- `pd.to_datetime(_, format="%d/%m/%Y")` on a single text cell: three
slash-separated fields of 1–2, 1–2 and 1–4 digits, calendar-validated and
restricted to the pandas timestamp range; anything else fails to parse. -/
def parseDDMMYYYY (s : String) : Option Date :=
  match splitCh '/' s.data with
  | [ds, ms, ys] =>
    if ds ≠ [] ∧ ds.length ≤ 2 ∧ ds.all Char.isDigit ∧
       ms ≠ [] ∧ ms.length ≤ 2 ∧ ms.all Char.isDigit ∧
       ys ≠ [] ∧ ys.length ≤ 4 ∧ ys.all Char.isDigit then
      if dateValidB ⟨natOfDigits ys, natOfDigits ms, natOfDigits ds⟩ &&
         tsInBoundsB ⟨natOfDigits ys, natOfDigits ms, natOfDigits ds⟩ then
        some ⟨natOfDigits ys, natOfDigits ms, natOfDigits ds⟩
      else none
    else none
  | _ => none

/-- `strftime("%d/%m/%Y")` for the in-range dates the pipeline produces. -/
def fmtDDMMYYYY (dt : Date) : String :=
  ⟨pad2 dt.day ++ '/' :: pad2 dt.month ++ '/' :: pad4 dt.year⟩

/-- `strftime("%Y-%m-%d")` for the in-range dates the pipeline produces. -/
def isoFmt (dt : Date) : String :=
  ⟨pad4 dt.year ++ '-' :: pad2 dt.month ++ '-' :: pad2 dt.day⟩

/-- Specification-side check: the text is a `YYYY-MM-DD` string (four
digits, dash, two digits, dash, two digits) denoting a calendar-valid
date. -/
def isoValid (s : String) : Bool :=
  match s.data with
  | [y1, y2, y3, y4, h1, m1, m2, h2, d1, d2] =>
    h1 = '-' && h2 = '-' &&
    [y1, y2, y3, y4, m1, m2, d1, d2].all Char.isDigit &&
    dateValidB ⟨natOfDigits [y1, y2, y3, y4], natOfDigits [m1, m2], natOfDigits [d1, d2]⟩
  | _ => false

/-! ## Period reconciliation (`year_to_last_day`, `convert_reporting_column`)

`year_to_last_day` wraps only the `int(year)` conversion in `try`; the
`datetime.date(year, 12, 31)` construction is outside it, so an
integer-convertible value whose integer is not a valid `datetime` year
(outside 1..9999) raises `ValueError` out of the function.  `Except.error`
models that uncaught exception. -/

/-- `year_to_last_day` from `src/scripts/preprocessing.py`. -/
def year_to_last_day (s : String) : Except Unit (Option Date) :=
  match pyInt? s with
  | none => Except.ok none
  | some y =>
    if 1 ≤ y ∧ y ≤ 9999 then Except.ok (some ⟨y.toNat, 12, 31⟩)
    else Except.error ()

/-- The per-cell behaviour of `convert_reporting_column` with
`year_to_last_day` and format `"%d/%m/%Y"`: apply `year_to_last_day`, then
`pd.to_datetime` (default `errors="raise"`, so a date outside the pandas
timestamp range raises), then `strftime("%d/%m/%Y")`; a null date becomes a
null cell (`NaT` formats to null). -/
def convertReportingCell (s : String) : Except Unit (Option String) :=
  match year_to_last_day s with
  | Except.error e => Except.error e
  | Except.ok none => Except.ok none
  | Except.ok (some d) =>
    if tsInBoundsB d then Except.ok (some (fmtDDMMYYYY d)) else Except.error ()

/-- The per-cell behaviour of `convert_and_format_date_columns_to_string`:
`pd.to_datetime(_, format="%d/%m/%Y", errors="coerce")`, then
`strftime("%Y-%m-%d")`, then `astype(str)`.  A null cell or an unparsable
value becomes `NaT`, which formats to null and then stringifies to
`"nan"`. -/
def finalFormatCell (c : Option String) : String :=
  match c with
  | none => "nan"
  | some s =>
    match parseDDMMYYYY s with
    | none => "nan"
    | some dt => isoFmt dt

/-- The Python regex `^\d{2}/\d{2}/\d{4}$` applied by
`filter_by_date_format`: exactly two digits, slash, two digits, slash,
four digits.  In Python `$` also matches just before a single trailing
newline, which `str.match` therefore accepts. -/
def shape2_2_4 (cs : List Char) : Bool :=
  match cs with
  | [a, b, s1, c, d, s2, e, f, g, h] =>
    s1 = '/' && s2 = '/' && [a, b, c, d, e, f, g, h].all Char.isDigit
  | _ => false

/-- `str.match(r"^\d{2}/\d{2}/\d{4}$")` on a cell's text. -/
def docIssueShape (s : String) : Bool :=
  shape2_2_4 s.data ||
    (match s.data.reverse with
     | '\n' :: r => shape2_2_4 r.reverse
     | _ => false)

/-! ## Column-wise effectful map

pandas applies a conversion to every cell of a column and raises as soon as
any cell fails; `mapE` is that semantics over `Except`. -/

/-- Apply `f` to every element, failing if any application fails. -/
def mapE {α β ε : Type} (f : α → Except ε β) : List α → Except ε (List β)
  | [] => Except.ok []
  | x :: xs =>
    match f x with
    | Except.error e => Except.error e
    | Except.ok y =>
      match mapE f xs with
      | Except.error e => Except.error e
      | Except.ok ys => Except.ok (y :: ys)

/-! ## The `process_data` pipeline (`src/backend/prepare_db_data.py`)

A raw row carries the eight projected columns as text cells.  The working
structures thread the original raw row together with the typed values the
successive steps produce, mirroring the in-place column overwrites. -/

/-- A row of the projected table, one text cell per kept column. -/
structure RawRow where
  name : String
  ship_type : String
  reporting_period : String
  doc_issue_date : String
  doc_expiry_date : String
  annual_average_co2_emissions : String
  total_co2_emissions : String
  technical_efficiency : String
deriving DecidableEq

/-- A row after technical-efficiency extraction and filtering. -/
structure TRow where
  raw : RawRow
  te : Rat
deriving DecidableEq

/-- A row after coercion of `annual_average_co2_emissions` to float. -/
structure CRow where
  raw : RawRow
  te : Rat
  co2 : Rat
deriving DecidableEq

/-- A row after period reconciliation of `Reporting Period`. -/
structure RRow where
  raw : RawRow
  te : Rat
  co2 : Rat
  rp : Option String
deriving DecidableEq

/-- A row of the pipeline's normalized output. -/
structure NormRow where
  name : String
  ship_type : String
  reporting_period : String
  doc_issue_date : String
  doc_expiry_date : String
  annual_average_co2_emissions : Rat
  total_co2_emissions : String
  technical_efficiency : Rat
deriving DecidableEq

/-- The fate of one row in steps 1–3 of `process_data`: regex extraction
(null on no match), `dropna`, and removal of values in `[0.0, 0]`. -/
def teExtractRow (r : RawRow) : Option TRow :=
  match extractTE r.technical_efficiency with
  | none => none
  | some q => if q = 0 then none else some ⟨r, q⟩

/-- Steps 1–3 of `process_data`: `extract_technical_efficiency_value`
(regex extraction with null on no match), `dropna` on the extracted
column, and removal of rows whose value is in `[0.0, 0]`. -/
def teStep (rows : List RawRow) : List TRow :=
  rows.filterMap teExtractRow

/-- Whether a raw row survives the technical-efficiency steps: its
`Technical efficiency` text has a decimal match whose value is nonzero. -/
def teKeepB (r : RawRow) : Bool :=
  match extractTE r.technical_efficiency with
  | none => false
  | some q => if q = 0 then false else true

/-- Step 4 of `process_data`: drop rows whose raw
`annual_average_co2_emissions` cell is the sentinel text. -/
def sentinelStep (l : List TRow) : List TRow :=
  l.filter fun x => x.raw.annual_average_co2_emissions ≠ "Division by zero!"

/-- Step 5 of `process_data`: `astype(float)` on the surviving
`annual_average_co2_emissions` cells; a cell that fails to coerce raises
out of the pipeline. -/
def co2Step (l : List TRow) : Except Unit (List CRow) :=
  mapE (fun x =>
    match pyFloat? x.raw.annual_average_co2_emissions with
    | some q => Except.ok ⟨x.raw, x.te, q⟩
    | none => Except.error ()) l

/-- Step 6 of `process_data`: `convert_reporting_column` on
`Reporting Period`. -/
def reportStep (l : List CRow) : Except Unit (List RRow) :=
  mapE (fun x =>
    match convertReportingCell x.raw.reporting_period with
    | Except.error e => Except.error e
    | Except.ok c => Except.ok ⟨x.raw, x.te, x.co2, c⟩) l

/-- Step 7 of `process_data`: `filter_by_date_format` on `DoC issue date`
with regex `^\d{2}/\d{2}/\d{4}$`. -/
def issueStep (l : List RRow) : List RRow :=
  l.filter fun x => docIssueShape x.raw.doc_issue_date

/-- Step 8 of `process_data`: `convert_and_format_date_columns_to_string`
on the three date columns, assembling the normalized row. -/
def finalizeRow (x : RRow) : NormRow where
  name := x.raw.name
  ship_type := x.raw.ship_type
  reporting_period := finalFormatCell x.rp
  doc_issue_date := finalFormatCell (some x.raw.doc_issue_date)
  doc_expiry_date := finalFormatCell (some x.raw.doc_expiry_date)
  annual_average_co2_emissions := x.co2
  total_co2_emissions := x.raw.total_co2_emissions
  technical_efficiency := x.te

/-- `process_data` from `src/backend/prepare_db_data.py`: the full
normalization pipeline on the projected table. -/
def process_data (rows : List RawRow) : Except Unit (List NormRow) :=
  match co2Step (sentinelStep (teStep rows)) with
  | Except.error e => Except.error e
  | Except.ok b =>
    match reportStep b with
    | Except.error e => Except.error e
    | Except.ok c => Except.ok ((issueStep c).map finalizeRow)

/-! ## Source Reader (`src/scripts/load_data.py`)

A directory entry is modelled by its file suffix and, for the reader, the
rows the file parses to — `none` when `pd.read_excel` would raise on it.
The row type is a parameter; the reader never inspects rows. -/

/-- Errors the loading stage can raise: an unparsable file
(`pd.read_excel` raising, the spec's `IOError`), or `pd.concat` on an
empty list of frames raising `ValueError`. -/
inductive LoadErr where
  | ioError
  | emptyConcat
deriving DecidableEq

/-- A file of the data directory: its suffix and its parsed rows
(`none` when the file cannot be parsed). -/
structure XFile (α : Type) where
  suffix : String
  rows : Option (List α)
deriving DecidableEq

/-- `get_xlsx_files`: keep the files whose suffix is `.xlsx`. -/
def get_xlsx_files {α : Type} (l : List (XFile α)) : List (XFile α) :=
  l.filter fun f => f.suffix = ".xlsx"

/-- `pd.read_excel` on one file: its rows, or a raised error when the file
cannot be parsed. -/
def read_xlsx {α : Type} (f : XFile α) : Except LoadErr (List α) :=
  match f.rows with
  | some r => Except.ok r
  | none => Except.error LoadErr.ioError

/-- `read_and_combine_xlsx_files`: read every file, then concatenate with
`pd.concat`, which raises when given no frames at all. -/
def read_and_combine_xlsx_files {α : Type} (files : List (XFile α)) :
    Except LoadErr (List α) :=
  match mapE read_xlsx files with
  | Except.error e => Except.error e
  | Except.ok dfs =>
    if dfs.isEmpty then Except.error LoadErr.emptyConcat else Except.ok dfs.flatten

/-- `load_data` from `src/scripts/load_data.py`. -/
def load_data {α : Type} (l : List (XFile α)) : Except LoadErr (List α) :=
  read_and_combine_xlsx_files (get_xlsx_files l)

/-! ## Column Projector (`load_and_filter_data`)

The combined table before projection is a list of rows, each an
association list from column label to cell text; a label is a column of
the combined table when some row carries it.  `df[columns_to_keep]` raises
a key error when any requested label is absent (`SchemaError` in the
spec's taxonomy); otherwise it returns the table restricted to exactly the
requested labels in the requested order, with absent cells null. -/

/-- A pre-projection row: column label to cell text. -/
abbrev PRow : Type := List (String × String)

/-- `COLUMNS_TO_KEEP` from `src/backend/prepare_db_data.py`. -/
def COLUMNS_TO_KEEP : List String :=
  ["Name", "Ship type", "Reporting Period", "DoC issue date", "DoC expiry date",
   "Annual average CO₂ emissions per distance [kg CO₂ / n mile]",
   "Total CO₂ emissions [m tonnes]", "Technical efficiency"]

/-- Whether the combined table has a column with the given label. -/
def hasCol (df : List PRow) (c : String) : Bool :=
  df.any fun r => (r.lookup c).isSome

/-- The projection `df = df[columns_to_keep]` inside
`load_and_filter_data`. -/
def selectColumns (df : List PRow) (cols : List String) :
    Except Unit (List (List (String × Option String))) :=
  if cols.all (hasCol df) then
    Except.ok (df.map fun r => cols.map fun c => (c, r.lookup c))
  else Except.error ()

/-! ## Record Store and API operations
(`src/backend/app/api/endpoints.py`, `src/backend/app/models/models.py`)

The store is the `ships` table: a list of `Ship` records keyed by the
surrogate integer `id`.  An HTTP error response is modelled as a status
code and detail text. -/

/-- A persisted Ship record (`app/models/models.py`). -/
structure Ship where
  id : Nat
  name : String
  ship_type : String
  reporting_period : String
  doc_issue_date : String
  doc_expiry_date : String
  annual_average_co2_emissions : Rat
  total_co2_emissions : Rat
  technical_efficiency : Rat
deriving DecidableEq

/-- The writable fields of a Ship (`ShipIn_Pydantic`: everything except
the read-only `id`). -/
structure ShipIn where
  name : String
  ship_type : String
  reporting_period : String
  doc_issue_date : String
  doc_expiry_date : String
  annual_average_co2_emissions : Rat
  total_co2_emissions : Rat
  technical_efficiency : Rat
deriving DecidableEq

/-- An HTTP error: status code and detail message. -/
abbrev HErr : Type := Nat × String

/-- Build the stored record from the input fields and a store-generated
surrogate id (`SERIAL` primary key: one greater than the largest id in
use). -/
def mkShip (id : Nat) (s : ShipIn) : Ship where
  id := id
  name := s.name
  ship_type := s.ship_type
  reporting_period := s.reporting_period
  doc_issue_date := s.doc_issue_date
  doc_expiry_date := s.doc_expiry_date
  annual_average_co2_emissions := s.annual_average_co2_emissions
  total_co2_emissions := s.total_co2_emissions
  technical_efficiency := s.technical_efficiency

/-- Next surrogate id generated by the store. -/
def nextId (store : List Ship) : Nat :=
  (store.map Ship.id).foldr max 0 + 1

/-- `update_from_dict` with every writable field supplied: replace the
record's fields, keeping its id. -/
def applyUpdate (s : Ship) (u : ShipIn) : Ship where
  id := s.id
  name := u.name
  ship_type := u.ship_type
  reporting_period := u.reporting_period
  doc_issue_date := u.doc_issue_date
  doc_expiry_date := u.doc_expiry_date
  annual_average_co2_emissions := u.annual_average_co2_emissions
  total_co2_emissions := u.total_co2_emissions
  technical_efficiency := u.technical_efficiency

/-- `create_ship`: reject when a record with the same name exists,
otherwise insert a new record.  Returns the store after the call and the
response. -/
def create_ship (store : List Ship) (ship : ShipIn) :
    List Ship × Except HErr Ship :=
  match store.find? (fun s => s.name = ship.name) with
  | some _ => (store, Except.error (400, "Ship with this name already exists"))
  | none =>
    let obj := mkShip (nextId store) ship
    (store ++ [obj], Except.ok obj)

/-- `update_ship_by_id`: 404 when the id is absent, otherwise overwrite
the record's writable fields.  No duplicate-name check is performed. -/
def update_ship_by_id (store : List Ship) (id : Nat) (upd : ShipIn) :
    List Ship × Except HErr Ship :=
  match store.find? (fun s => s.id = id) with
  | none => (store, Except.error (404, "Ship not found"))
  | some s =>
    let s2 := applyUpdate s upd
    (store.map fun t => if t.id = id then s2 else t, Except.ok s2)

/-- `delete_ship_by_id`: 404 when the id is absent, otherwise remove the
record with that primary key. -/
def delete_ship_by_id (store : List Ship) (id : Nat) :
    List Ship × Except HErr Ship :=
  match store.find? (fun s => s.id = id) with
  | none => (store, Except.error (404, "Ship not found"))
  | some s =>
    (store.filter fun t => t.id ≠ id, Except.ok s)

/-- `get_ships`: total count plus the page `offset(skip).limit(limit)`;
404 when the page is empty. -/
def get_ships (store : List Ship) (skip limit : Nat) :
    Except HErr (Nat × List Ship) :=
  let total := store.length
  let ships := (store.drop skip).take limit
  if ships.isEmpty then Except.error (404, "No ships found")
  else Except.ok (total, ships)

/-- Uniqueness of `name` across the store. -/
def NamesUnique (store : List Ship) : Prop :=
  (store.map Ship.name).Nodup

/-- Uniqueness of the surrogate primary key `id` across the store (the
`SERIAL PRIMARY KEY` constraint of the `ships` table). -/
def IdsUnique (store : List Ship) : Prop :=
  (store.map Ship.id).Nodup

instance decNamesUnique (store : List Ship) : Decidable (NamesUnique store) :=
  inferInstanceAs (Decidable (store.map Ship.name).Nodup)

instance decIdsUnique (store : List Ship) : Decidable (IdsUnique store) :=
  inferInstanceAs (Decidable (store.map Ship.id).Nodup)

/-! ## Concrete sample data used to instantiate the theorems -/

/-- A raw row that survives every filter of the pipeline. -/
def rowW : RawRow :=
  ⟨"A", "Bulk", "2015", "01/02/2020", "02/03/2025", "5.0", "1.0", "EEDI (12.34 gCO2/t nm)"⟩

/-- The normalized row the pipeline produces from `rowW`. -/
def outW : NormRow :=
  ⟨"A", "Bulk", "2015-12-31", "2020-02-01", "2025-03-02", 5, "1.0", 1234 / 100⟩

/-- A raw row whose `annual_average_co2_emissions` cell is not coercible. -/
def rowBadCo2 : RawRow :=
  ⟨"B", "Tanker", "2016", "03/04/2021", "04/05/2026", "not numeric", "2.0",
   "EEDI (10.01 gCO2/t nm)"⟩

/-- A raw row carrying the division-by-zero sentinel. -/
def rowSentinel : RawRow :=
  ⟨"C", "Cargo", "2017", "05/06/2022", "06/07/2027", "Division by zero!", "3.0",
   "EEDI (9.5 gCO2/t nm)"⟩

/-- A raw row whose `doc_expiry_date` cell is not a date; it survives every
filter of the pipeline. -/
def rowBadExpiry : RawRow :=
  ⟨"D", "Tanker", "2016", "03/04/2021", "not a date", "6.5", "2.0",
   "EEDI (10.01 gCO2/t nm)"⟩

/-- A working row over `rowW` as it stands after the efficiency steps. -/
def trW : TRow := ⟨rowW, 1234 / 100⟩

/-- A working row over `rowBadCo2` after the efficiency steps. -/
def trBadCo2 : TRow := ⟨rowBadCo2, 1001 / 100⟩

/-- A working row over `rowSentinel` after the efficiency steps. -/
def trSentinel : TRow := ⟨rowSentinel, 95 / 10⟩

/-- A working row over `rowW` as it stands before the issue-date filter. -/
def rrW : RRow := ⟨rowW, 1234 / 100, 5, some "31/12/2015"⟩

/-- A stored ship record. -/
def shipA : Ship :=
  ⟨1, "Alpha", "Bulk", "2015-12-31", "2020-02-01", "2025-03-02", 1, 2, 3⟩

/-- A second stored ship record with a distinct name. -/
def shipB : Ship :=
  ⟨2, "Beta", "Tanker", "2016-12-31", "2021-04-03", "2026-05-04", 4, 5, 6⟩

/-- An update payload that renames a ship to the name of `shipB`. -/
def updToBeta : ShipIn :=
  ⟨"Beta", "Bulk", "2015-12-31", "2020-02-01", "2025-03-02", 1, 2, 3⟩

/-- A create payload with a fresh name. -/
def newShipIn : ShipIn :=
  ⟨"Gamma", "Cargo", "2017-12-31", "2022-06-05", "2027-07-06", 7, 8, 9⟩

/-- A create payload that duplicates the name of `shipA`. -/
def dupShipIn : ShipIn :=
  ⟨"Alpha", "Cargo", "2017-12-31", "2022-06-05", "2027-07-06", 7, 8, 9⟩

/-- A pre-projection row with a single column. -/
def prow0 : PRow := [("Name", "A")]

/-- A one-file directory whose spreadsheet parses to one row. -/
def files0 : List (XFile PRow) := [⟨".xlsx", some [prow0]⟩]

/-- A combined table carrying all eight required columns. -/
def dfFull : List PRow := [COLUMNS_TO_KEEP.map fun c => (c, "x")]

/-- A combined table missing the `Name` column. -/
def dfMissing : List PRow := [[("Ship type", "Bulk")]]

/-! ## General lemmas about the column-wise effectful map -/

theorem mapE_ok_mem {α β ε : Type} (f : α → Except ε β) :
    ∀ (l : List α) (out : List β), mapE f l = Except.ok out →
      ∀ y ∈ out, ∃ x ∈ l, f x = Except.ok y := by
  intro l
  induction l with
  | nil =>
    intro out h y hy
    simp only [mapE, Except.ok.injEq] at h
    subst h
    simp at hy
  | cons a as ih =>
    intro out h y hy
    simp only [mapE] at h
    cases hfa : f a with
    | error e => rw [hfa] at h; exact absurd h (by simp)
    | ok b =>
      rw [hfa] at h
      cases hrest : mapE f as with
      | error e => rw [hrest] at h; exact absurd h (by simp)
      | ok bs =>
        rw [hrest] at h
        simp only [Except.ok.injEq] at h
        subst h
        rcases List.mem_cons.mp hy with hy1 | hy2
        · exact ⟨a, List.mem_cons_self a as, hy1 ▸ hfa⟩
        · obtain ⟨x, hx, hfx⟩ := ih bs hrest y hy2
          exact ⟨x, List.mem_cons_of_mem a hx, hfx⟩

theorem mapE_error_of_mem {α β ε : Type} (f : α → Except ε β) :
    ∀ (l : List α) (x : α), x ∈ l → (∀ y, f x ≠ Except.ok y) →
      ∃ e, mapE f l = Except.error e := by
  intro l
  induction l with
  | nil => intro x hx; simp at hx
  | cons a as ih =>
    intro x hx hfx
    rcases List.mem_cons.mp hx with rfl | hx2
    · cases hfa : f x with
      | error e => exact ⟨e, by simp [mapE, hfa]⟩
      | ok y => exact absurd hfa (hfx y)
    · cases hfa : f a with
      | error e => exact ⟨e, by simp [mapE, hfa]⟩
      | ok y =>
        obtain ⟨e, he⟩ := ih x hx2 hfx
        exact ⟨e, by simp [mapE, hfa, he]⟩

theorem mapE_error_mem {α β ε : Type} (f : α → Except ε β) :
    ∀ (l : List α) (e : ε), mapE f l = Except.error e →
      ∃ x ∈ l, f x = Except.error e := by
  intro l
  induction l with
  | nil => intro e h; simp [mapE] at h
  | cons a as ih =>
    intro e h
    simp only [mapE] at h
    cases hfa : f a with
    | error e2 =>
      rw [hfa] at h
      simp only [Except.error.injEq] at h
      exact ⟨a, List.mem_cons_self a as, h ▸ hfa⟩
    | ok b =>
      rw [hfa] at h
      cases hrest : mapE f as with
      | error e2 =>
        rw [hrest] at h
        simp only [Except.error.injEq] at h
        obtain ⟨x, hx, hfx⟩ := ih e2 hrest
        exact ⟨x, List.mem_cons_of_mem a hx, h ▸ hfx⟩
      | ok bs => rw [hrest] at h; exact absurd h (by simp)

theorem mapE_ok_of_forall {α β ε : Type} (f : α → Except ε β) (g : α → β) :
    ∀ (l : List α), (∀ x ∈ l, f x = Except.ok (g x)) →
      mapE f l = Except.ok (l.map g) := by
  intro l
  induction l with
  | nil => intro _; rfl
  | cons a as ih =>
    intro h
    have ha := h a (List.mem_cons_self a as)
    have has := ih fun x hx => h x (List.mem_cons_of_mem a hx)
    simp [mapE, ha, has]

/-! ## Lemmas about the technical-efficiency extraction step -/

theorem decValue_nonneg (p : List Char × List Char) : 0 ≤ decValue p := by
  unfold decValue
  have h1 : (0 : Rat) ≤ (natOfDigits p.1 : Rat) := by positivity
  have h2 : (0 : Rat) ≤ (natOfDigits p.2 : Rat) / (10 : Rat) ^ p.2.length := by positivity
  linarith

theorem extractTE_nonneg (s : String) (q : Rat) (h : extractTE s = some q) : 0 ≤ q := by
  unfold extractTE at h
  cases hf : findDec s.data with
  | none => rw [hf] at h; simp at h
  | some p =>
    rw [hf] at h
    simp at h
    exact h ▸ decValue_nonneg p

theorem teExtractRow_some (r : RawRow) (t : TRow) (h : teExtractRow r = some t) :
    0 < t.te ∧ t.raw = r ∧ extractTE r.technical_efficiency = some t.te := by
  unfold teExtractRow at h
  split at h
  · simp at h
  next q hex =>
    split at h
    · simp at h
    next hq =>
      simp only [Option.some.injEq] at h
      subst h
      exact ⟨lt_of_le_of_ne (extractTE_nonneg r.technical_efficiency q hex)
        (fun h0 => hq h0.symm), rfl, hex⟩

theorem mem_teStep_pos (rows : List RawRow) (t : TRow) (ht : t ∈ teStep rows) :
    0 < t.te ∧ extractTE t.raw.technical_efficiency = some t.te := by
  unfold teStep at ht
  obtain ⟨r, _hr, hmk⟩ := List.mem_filterMap.mp ht
  obtain ⟨hpos, hraw, hex⟩ := teExtractRow_some r t hmk
  exact ⟨hpos, hraw ▸ hex⟩

theorem teKeepB_eq_isSome (r : RawRow) : teKeepB r = (teExtractRow r).isSome := by
  unfold teKeepB teExtractRow
  cases extractTE r.technical_efficiency with
  | none => rfl
  | some q => by_cases hq : q = 0 <;> simp [hq]

theorem filterMap_filter_isSome {α β : Type} (f : α → Option β) (p : α → Bool)
    (hp : ∀ a, p a = (f a).isSome) :
    ∀ l : List α, (l.filter p).filterMap f = l.filterMap f := by
  intro l
  induction l with
  | nil => rfl
  | cons a as ih =>
    cases hfa : f a with
    | none =>
      have hpa : p a = false := by rw [hp, hfa]; rfl
      simp [List.filter_cons, hpa, List.filterMap_cons, hfa, ih]
    | some b =>
      have hpa : p a = true := by rw [hp, hfa]; rfl
      simp [List.filter_cons, hpa, List.filterMap_cons, hfa, ih]

theorem teStep_filter_teKeepB (rows : List RawRow) :
    teStep (rows.filter teKeepB) = teStep rows := by
  unfold teStep
  exact filterMap_filter_isSome teExtractRow teKeepB teKeepB_eq_isSome rows

/-! ## Inversion of a successful pipeline run -/

theorem process_data_ok_inv (rows : List RawRow) (out : List NormRow)
    (h : process_data rows = Except.ok out) :
    ∃ b c, co2Step (sentinelStep (teStep rows)) = Except.ok b ∧
      reportStep b = Except.ok c ∧
      out = (issueStep c).map finalizeRow := by
  unfold process_data at h
  split at h
  · simp at h
  next b heq =>
    split at h
    · simp at h
    next c heq2 =>
      simp only [Except.ok.injEq] at h
      exact ⟨b, c, heq, heq2, h.symm⟩

theorem mem_co2Step_inv (l : List TRow) (b : List CRow)
    (hb : co2Step l = Except.ok b) (y : CRow) (hy : y ∈ b) :
    ∃ x ∈ l, x.raw = y.raw ∧ x.te = y.te ∧
      pyFloat? x.raw.annual_average_co2_emissions = some y.co2 := by
  obtain ⟨x, hx, hfx⟩ := mapE_ok_mem _ l b hb y hy
  refine ⟨x, hx, ?_⟩
  split at hfx
  next q hp =>
    simp only [Except.ok.injEq] at hfx
    subst hfx
    exact ⟨rfl, rfl, hp⟩
  next hp => simp at hfx

theorem mem_reportStep_inv (b : List CRow) (c : List RRow)
    (hc : reportStep b = Except.ok c) (x : RRow) (hx : x ∈ c) :
    ∃ y ∈ b, y.raw = x.raw ∧ y.te = x.te ∧ y.co2 = x.co2 ∧
      convertReportingCell y.raw.reporting_period = Except.ok x.rp := by
  obtain ⟨y, hy, hfy⟩ := mapE_ok_mem _ b c hc x hx
  refine ⟨y, hy, ?_⟩
  split at hfy
  next e hcv => simp at hfy
  next cell hcv =>
    simp only [Except.ok.injEq] at hfy
    subst hfy
    exact ⟨rfl, rfl, rfl, hcv⟩

/-! ## Lemmas about date formatting and validity -/

theorem isDigit_digitChar_mod (n : Nat) : (Nat.digitChar (n % 10)).isDigit = true := by
  have h : n % 10 < 10 := Nat.mod_lt _ (by decide)
  interval_cases hk : n % 10 <;> decide

theorem toD_digitChar_mod (n : Nat) : (Nat.digitChar (n % 10)).toNat - 48 = n % 10 := by
  have h : n % 10 < 10 := Nat.mod_lt _ (by decide)
  interval_cases hk : n % 10 <;> decide

theorem natOfDigits_two (a b : Char) :
    natOfDigits [a, b] = 10 * (a.toNat - 48) + (b.toNat - 48) := by
  simp [natOfDigits, List.foldl]

theorem natOfDigits_four (a b c d : Char) :
    natOfDigits [a, b, c, d] =
      10 * (10 * (10 * (a.toNat - 48) + (b.toNat - 48)) + (c.toNat - 48)) + (d.toNat - 48) := by
  simp [natOfDigits, List.foldl]

theorem daysInMonth_le (y m : Nat) : daysInMonth y m ≤ 31 := by
  unfold daysInMonth
  split
  · split <;> decide
  · split <;> decide

theorem parseDDMMYYYY_some (s : String) (dt : Date) (h : parseDDMMYYYY s = some dt) :
    dateValidB dt = true ∧ tsInBoundsB dt = true := by
  unfold parseDDMMYYYY at h
  split at h
  · split at h
    · split at h
      · simp only [Option.some.injEq] at h
        subst h
        rename_i hvb
        simp only [Bool.and_eq_true] at hvb
        exact hvb
      · simp at h
    · simp at h
  · simp at h

theorem pad2_mod (n : Nat) : pad2 n = [Nat.digitChar (n / 10 % 10), Nat.digitChar (n % 10)] := rfl

theorem isoValid_isoFmt (dt : Date) (h1 : dateValidB dt = true) (h2 : tsInBoundsB dt = true) :
    isoValid (isoFmt dt) = true := by
  have hb1 := h1
  simp only [dateValidB, Bool.and_eq_true, decide_eq_true_eq] at hb1
  obtain ⟨⟨⟨hm1, hm2⟩, hd1⟩, hd2⟩ := hb1
  simp only [tsInBoundsB, Bool.or_eq_true, Bool.and_eq_true, decide_eq_true_eq] at h2
  have hy2 : dt.year ≤ 2262 := by omega
  have hdm : dt.day ≤ 31 := le_trans hd2 (daysInMonth_le dt.year dt.month)
  show isoValid ⟨pad4 dt.year ++ '-' :: pad2 dt.month ++ '-' :: pad2 dt.day⟩ = true
  simp only [isoValid, isoFmt, pad4, pad2, List.cons_append, List.nil_append]
  simp only [List.all_cons, List.all_nil, isDigit_digitChar_mod, Bool.and_true, Bool.true_and]
  have hY : natOfDigits [Nat.digitChar (dt.year / 1000 % 10), Nat.digitChar (dt.year / 100 % 10),
      Nat.digitChar (dt.year / 10 % 10), Nat.digitChar (dt.year % 10)] = dt.year := by
    rw [natOfDigits_four, toD_digitChar_mod, toD_digitChar_mod, toD_digitChar_mod,
      toD_digitChar_mod]
    omega
  have hM : natOfDigits [Nat.digitChar (dt.month / 10 % 10), Nat.digitChar (dt.month % 10)] =
      dt.month := by
    rw [natOfDigits_two, toD_digitChar_mod, toD_digitChar_mod]
    omega
  have hD : natOfDigits [Nat.digitChar (dt.day / 10 % 10), Nat.digitChar (dt.day % 10)] =
      dt.day := by
    rw [natOfDigits_two, toD_digitChar_mod, toD_digitChar_mod]
    omega
  rw [hY, hM, hD]
  simpa using h1

theorem finalFormatCell_validOrNan (c : Option String) :
    isoValid (finalFormatCell c) = true ∨ finalFormatCell c = "nan" := by
  unfold finalFormatCell
  cases c with
  | none => right; rfl
  | some s =>
    cases hp : parseDDMMYYYY s with
    | none => right; simp [hp]
    | some dt =>
      left
      simp only [hp]
      exact isoValid_isoFmt dt (parseDDMMYYYY_some s dt hp).1 (parseDDMMYYYY_some s dt hp).2

/-! ## Claim theorems -/

set_option maxRecDepth 80000

/-- C1: every row of the normalized output has `technical_efficiency`
strictly greater than zero, and rows whose `Technical efficiency` text has
no decimal match or whose first match coerces to zero contribute nothing
to the output (filtering them away beforehand leaves the output
unchanged). -/
theorem C1_technical_efficiency_positive (rows : List RawRow) (out : List NormRow)
    (h : process_data rows = Except.ok out) :
    (∀ r ∈ out, 0 < r.technical_efficiency) ∧
    process_data (rows.filter teKeepB) = Except.ok out := by
  constructor
  · intro r hr
    obtain ⟨b, c, hb, hc, hout⟩ := process_data_ok_inv rows out h
    subst hout
    obtain ⟨x, hx1, hx2⟩ := List.mem_map.mp hr
    have hxc : x ∈ c := List.mem_of_mem_filter hx1
    obtain ⟨y, hy, _, hyte, _, _⟩ := mem_reportStep_inv b c hc x hxc
    obtain ⟨z, hz, _, hzte, _⟩ := mem_co2Step_inv _ b hb y hy
    have hzs : z ∈ teStep rows := List.mem_of_mem_filter hz
    have hpos := (mem_teStep_pos rows z hzs).1
    have hre : r.technical_efficiency = x.te := by rw [← hx2]; rfl
    rw [hre, ← hyte, ← hzte]
    exact hpos
  · have hsame : process_data (rows.filter teKeepB) = process_data rows := by
      unfold process_data
      rw [teStep_filter_teKeepB]
    rw [hsame]
    exact h

/-- Witness: the theorem of C1 applied to a one-row table that survives
the whole pipeline. -/
theorem C1_technical_efficiency_positive_witness :
    (∀ r ∈ [outW], 0 < r.technical_efficiency) ∧
    process_data ([rowW].filter teKeepB) = Except.ok [outW] :=
  C1_technical_efficiency_positive [rowW] [outW] (by with_unfolding_all decide)

/-- C2: the sentinel filter drops exactly the rows whose raw
`annual_average_co2_emissions` text is the division-by-zero sentinel
before any coercion; if any surviving cell fails the float coercion the
step raises instead of dropping the row, and on success every surviving
value is the float coercion of its cell. -/
theorem C2_sentinel_then_coerce (l : List TRow) :
    (∀ x ∈ sentinelStep l, x.raw.annual_average_co2_emissions ≠ "Division by zero!") ∧
    ((∃ x ∈ sentinelStep l, pyFloat? x.raw.annual_average_co2_emissions = none) →
      co2Step (sentinelStep l) = Except.error ()) ∧
    (∀ out, co2Step (sentinelStep l) = Except.ok out →
      ∀ y ∈ out, pyFloat? y.raw.annual_average_co2_emissions = some y.co2) := by
  refine ⟨?_, ?_, ?_⟩
  · intro x hx
    have hpx := List.of_mem_filter hx
    simpa using hpx
  · rintro ⟨x, hx, hnone⟩
    obtain ⟨e, he⟩ := mapE_error_of_mem
      (fun t : TRow =>
        match pyFloat? t.raw.annual_average_co2_emissions with
        | some q => Except.ok (⟨t.raw, t.te, q⟩ : CRow)
        | none => Except.error ())
      (sentinelStep l) x hx
      (by intro y; simp [hnone])
    cases e
    unfold co2Step
    exact he
  · intro out hok y hy
    obtain ⟨x, hx, hraw, _, hco⟩ := mem_co2Step_inv (sentinelStep l) out hok y hy
    rw [← hraw]
    exact hco

/-- Witness: the theorem of C2 applied to a table with a sentinel row and
an uncoercible row; the step raises. -/
theorem C2_sentinel_then_coerce_witness :
    co2Step (sentinelStep [trSentinel, trBadCo2]) = Except.error () :=
  (C2_sentinel_then_coerce [trSentinel, trBadCo2]).2.1
    ⟨trBadCo2, by with_unfolding_all decide, by decide⟩

/-- C3 counterexample: `"0"` is integer-convertible (`int("0")` succeeds)
yet `year_to_last_day` neither returns December 31 of that year nor an
undefined date — the uncaught `datetime.date(0, 12, 31)` error
propagates. -/
theorem C3_period_reconciliation_counterexample :
    pyInt? "0" = some 0 ∧ year_to_last_day "0" = Except.error () := by decide

/-- C3 amended: an integer-convertible period whose integer is a valid
calendar year (1..9999) maps to December 31 of that year; a
non-integer-convertible period maps to an undefined date; out-of-range
integers raise.  The value `"2015"` becomes intermediate `"31/12/2015"`
and final `"2015-12-31"`. -/
theorem C3_period_reconciliation_amended :
    (∀ (s : String) (y : Int), pyInt? s = some y → 1 ≤ y → y ≤ 9999 →
      year_to_last_day s = Except.ok (some ⟨y.toNat, 12, 31⟩)) ∧
    (∀ s : String, pyInt? s = none → year_to_last_day s = Except.ok none) ∧
    convertReportingCell "2015" = Except.ok (some "31/12/2015") ∧
    finalFormatCell (some "31/12/2015") = "2015-12-31" := by
  refine ⟨?_, ?_, by decide, by decide⟩
  · intro s y hpy h1 h2
    unfold year_to_last_day
    rw [hpy]
    simp [h1, h2]
  · intro s hpy
    unfold year_to_last_day
    rw [hpy]

/-- Witness: the amended theorem of C3 applied to the period `"2015"`. -/
theorem C3_period_reconciliation_witness :
    year_to_last_day "2015" = Except.ok (some ⟨(2015 : Int).toNat, 12, 31⟩) :=
  C3_period_reconciliation_amended.1 "2015" 2015 (by decide) (by decide) (by decide)

/-- C4: the issue-date filter keeps a row exactly when its
`doc_issue_date` text matches two digits, slash, two digits, slash, four
digits (whole rows are dropped, never nulled), and the calendar-invalid
`"15/13/2020"` passes the shape-only check. -/
theorem C4_issue_date_shape_filter (l : List RRow) :
    (∀ x, x ∈ issueStep l ↔ x ∈ l ∧ docIssueShape x.raw.doc_issue_date = true) ∧
    docIssueShape "15/13/2020" = true := by
  refine ⟨?_, by decide⟩
  intro x
  unfold issueStep
  rw [List.mem_filter]

/-- Witness: the theorem of C4 applied to a concrete kept row. -/
theorem C4_issue_date_shape_filter_witness : rrW ∈ issueStep [rrW] :=
  ((C4_issue_date_shape_filter [rrW]).1 rrW).mpr
    ⟨by with_unfolding_all decide, by decide⟩

/-- C5 counterexample: a row whose `doc_expiry_date` cell is not a date
survives the whole pipeline (no filter inspects the expiry date), and its
output `doc_expiry_date` is not a valid `YYYY-MM-DD` string — it is the
stringified missing marker. -/
theorem C5_date_invariant_counterexample :
    (process_data [rowBadExpiry]).map (fun l => l.map fun r => isoValid r.doc_expiry_date) =
      Except.ok [false] := by
  with_unfolding_all decide

/-- C5 amended: every row of the normalized output holds, in each of the
three date fields, either a `YYYY-MM-DD` string denoting a valid calendar
date or the missing-value marker text `"nan"` (a field whose source did
not parse as a calendar-valid `DD/MM/YYYY` date holds the marker). -/
theorem C5_date_fields_valid_or_missing (rows : List RawRow) (out : List NormRow)
    (h : process_data rows = Except.ok out) :
    ∀ r ∈ out,
      (isoValid r.reporting_period = true ∨ r.reporting_period = "nan") ∧
      (isoValid r.doc_issue_date = true ∨ r.doc_issue_date = "nan") ∧
      (isoValid r.doc_expiry_date = true ∨ r.doc_expiry_date = "nan") := by
  intro r hr
  obtain ⟨b, c, hb, hc, hout⟩ := process_data_ok_inv rows out h
  subst hout
  obtain ⟨x, hx1, hx2⟩ := List.mem_map.mp hr
  subst hx2
  exact ⟨finalFormatCell_validOrNan x.rp,
    finalFormatCell_validOrNan (some x.raw.doc_issue_date),
    finalFormatCell_validOrNan (some x.raw.doc_expiry_date)⟩

/-- Witness: the amended theorem of C5 applied to a concrete run and its
single output row. -/
theorem C5_date_fields_valid_or_missing_witness :
    (isoValid outW.reporting_period = true ∨ outW.reporting_period = "nan") ∧
    (isoValid outW.doc_issue_date = true ∨ outW.doc_issue_date = "nan") ∧
    (isoValid outW.doc_expiry_date = true ∨ outW.doc_expiry_date = "nan") :=
  C5_date_fields_valid_or_missing [rowW] [outW] (by with_unfolding_all decide)
    outW (by simp)

/-- C6 counterexample: on a directory with no spreadsheet files the
loader raises (`pd.concat` of zero frames) instead of returning zero
rows. -/
theorem C6_empty_directory_counterexample :
    load_data ([] : List (XFile PRow)) = Except.error LoadErr.emptyConcat := by decide

/-- C6 amended: given a directory with no spreadsheet files the Source
Reader raises the empty-concatenation error rather than producing zero
rows; it raises `IOError` when some spreadsheet file cannot be parsed,
and returns the concatenated rows when at least one spreadsheet file
exists and all parse. -/
theorem C6_loader_amended (files : List (XFile PRow)) :
    (get_xlsx_files files = [] → load_data files = Except.error LoadErr.emptyConcat) ∧
    ((∃ f ∈ get_xlsx_files files, f.rows = none) →
      load_data files = Except.error LoadErr.ioError) ∧
    ((∀ f ∈ get_xlsx_files files, f.rows ≠ none) → get_xlsx_files files ≠ [] →
      load_data files =
        Except.ok ((get_xlsx_files files).map (fun f => f.rows.getD [])).flatten) := by
  refine ⟨?_, ?_, ?_⟩
  · intro h0
    unfold load_data read_and_combine_xlsx_files
    rw [h0]
    rfl
  · rintro ⟨f, hf, hnone⟩
    obtain ⟨e, he⟩ := mapE_error_of_mem read_xlsx (get_xlsx_files files) f hf
      (by intro y; simp [read_xlsx, hnone])
    obtain ⟨g, hg, hge⟩ := mapE_error_mem read_xlsx (get_xlsx_files files) e he
    have heio : e = LoadErr.ioError := by
      unfold read_xlsx at hge
      cases hgr : g.rows with
      | some r => rw [hgr] at hge; simp at hge
      | none =>
        rw [hgr] at hge
        simp only [Except.error.injEq] at hge
        exact hge.symm
    subst heio
    unfold load_data read_and_combine_xlsx_files
    rw [he]
  · intro hall hne
    have hmap := mapE_ok_of_forall read_xlsx (fun f => f.rows.getD [])
      (get_xlsx_files files)
      (by
        intro f hf
        cases hfr : f.rows with
        | some r => simp [read_xlsx, hfr]
        | none => exact absurd hfr (hall f hf))
    unfold load_data read_and_combine_xlsx_files
    rw [hmap]
    have hne2 : ((get_xlsx_files files).map (fun f => f.rows.getD [])).isEmpty = false := by
      cases hgl : get_xlsx_files files with
      | nil => exact absurd hgl hne
      | cons a as => simp
    simp [hne2]

/-- Witness: the amended theorem of C6 applied to a one-file directory. -/
theorem C6_loader_witness : load_data files0 = Except.ok [prow0] := by
  have h := (C6_loader_amended files0).2.2 (by decide) (by decide)
  simpa using h

/-- C7: projecting the combined table onto the eight required source
labels raises when any label is absent, and on success every returned
row carries exactly the eight labels in the fixed order — never a
narrower table. -/
theorem C7_projector_schema_error (df : List PRow) :
    ((∃ c ∈ COLUMNS_TO_KEEP, hasCol df c = false) →
      selectColumns df COLUMNS_TO_KEEP = Except.error ()) ∧
    (∀ out, selectColumns df COLUMNS_TO_KEEP = Except.ok out →
      ∀ row ∈ out, row.map Prod.fst = COLUMNS_TO_KEEP) := by
  constructor
  · rintro ⟨c, hc, hcol⟩
    unfold selectColumns
    rw [if_neg]
    intro hall
    rw [List.all_eq_true] at hall
    have hcall := hall c hc
    rw [hcol] at hcall
    simp at hcall
  · intro out hout row hrow
    unfold selectColumns at hout
    split at hout
    · simp only [Except.ok.injEq] at hout
      subst hout
      obtain ⟨r, _, hr2⟩ := List.mem_map.mp hrow
      subst hr2
      simp only [List.map_map]
      have hcomp : (Prod.fst ∘ fun c => (c, List.lookup c r)) = fun c : String => c := rfl
      rw [hcomp]
      simp
    · simp at hout

/-- Witness: the theorem of C7 applied to a table missing the `Name`
column. -/
theorem C7_projector_schema_error_witness :
    selectColumns dfMissing COLUMNS_TO_KEEP = Except.error () :=
  (C7_projector_schema_error dfMissing).1 ⟨"Name", by decide, by decide⟩

/-- C8: a create request whose name equals the name of a stored record
returns the bad-request signal and leaves the store unchanged. -/
theorem C8_create_rejects_duplicate_name (store : List Ship) (ship : ShipIn)
    (h : ∃ s ∈ store, s.name = ship.name) :
    create_ship store ship =
      (store, Except.error (400, "Ship with this name already exists")) := by
  obtain ⟨s, hs, hname⟩ := h
  unfold create_ship
  cases hf : store.find? (fun t => t.name = ship.name) with
  | some t => rfl
  | none =>
    rw [List.find?_eq_none] at hf
    have hfs := hf s hs
    simp at hfs
    exact absurd hname hfs

/-- Witness: the theorem of C8 applied to a concrete duplicate create. -/
theorem C8_create_rejects_duplicate_name_witness :
    create_ship [shipA, shipB] dupShipIn =
      ([shipA, shipB], Except.error (400, "Ship with this name already exists")) :=
  C8_create_rejects_duplicate_name [shipA, shipB] dupShipIn
    ⟨shipA, by with_unfolding_all decide, by decide⟩

/-- C9 counterexample: starting from a store with pairwise-distinct
names, updating a ship by id to a name already carried by another record
succeeds and leaves the store with a duplicated name — the update
operation does not preserve the uniqueness invariant. -/
theorem C9_name_uniqueness_counterexample :
    NamesUnique [shipA, shipB] ∧
    ¬ NamesUnique (update_ship_by_id [shipA, shipB] 1 updToBeta).1 := by
  with_unfolding_all decide

/-- C9 amended: create and delete preserve uniqueness of `name`; update
preserves it only under the extra assumption that the new name does not
collide with any other record (ids pairwise distinct, as the primary key
guarantees). -/
theorem C9_name_uniqueness_amended :
    (∀ (store : List Ship) (ship : ShipIn), NamesUnique store →
      NamesUnique (create_ship store ship).1) ∧
    (∀ (store : List Ship) (id : Nat), NamesUnique store →
      NamesUnique (delete_ship_by_id store id).1) ∧
    (∀ (store : List Ship) (id : Nat) (upd : ShipIn), IdsUnique store → NamesUnique store →
      (∀ t ∈ store, t.id ≠ id → t.name ≠ upd.name) →
      NamesUnique (update_ship_by_id store id upd).1) := by
  refine ⟨?_, ?_, ?_⟩
  · intro store ship h
    unfold create_ship
    cases hf : store.find? (fun t => t.name = ship.name) with
    | some t => exact h
    | none =>
      rw [List.find?_eq_none] at hf
      unfold NamesUnique at h ⊢
      rw [List.map_append, List.nodup_append]
      refine ⟨h, List.nodup_singleton _, ?_⟩
      intro a ha hb
      simp only [List.map_cons, List.map_nil, List.mem_singleton] at hb
      obtain ⟨s, hs, hsn⟩ := List.mem_map.mp ha
      have hfs := hf s hs
      simp at hfs
      apply hfs
      rw [hsn, hb]
      rfl
  · intro store id h
    unfold delete_ship_by_id
    cases hf : store.find? (fun t => t.id = id) with
    | none => exact h
    | some s =>
      unfold NamesUnique at h ⊢
      exact ((List.filter_sublist store).map Ship.name).nodup h
  · intro store id upd hid h hc
    unfold update_ship_by_id
    cases hf : store.find? (fun t => t.id = id) with
    | none => exact h
    | some s =>
      unfold NamesUnique at h ⊢
      unfold IdsUnique at hid
      rw [List.map_map]
      have hn : store.Pairwise (fun a b => a.name ≠ b.name) := List.pairwise_map.mp h
      have hi : store.Pairwise (fun a b => a.id ≠ b.id) := List.pairwise_map.mp hid
      apply List.pairwise_map.mpr
      refine List.Pairwise.imp_of_mem ?_ (List.Pairwise.and hn hi)
      intro a b ha hb hab
      by_cases h1 : a.id = id <;> by_cases h2 : b.id = id
      · exact absurd (h1.trans h2.symm) hab.2
      · simp only [h1, h2, if_true, if_false, Function.comp]
        intro hh
        exact hc b hb h2 hh.symm
      · simp only [h1, h2, if_true, if_false, Function.comp]
        intro hh
        exact hc a ha h1 hh
      · simp only [h1, h2, if_false, Function.comp]
        exact hab.1

/-- Witness: the amended theorem of C9 applied to a concrete create with
a fresh name. -/
theorem C9_name_uniqueness_witness :
    NamesUnique (create_ship [shipA, shipB] newShipIn).1 :=
  C9_name_uniqueness_amended.1 [shipA, shipB] newShipIn (by with_unfolding_all decide)

/-- C10: the paginated list returns the 404 not-found signal whenever the
requested page is empty — in particular for every store and every skip
of at least the store size, regardless of the (positive) limit and of
the store being non-empty. -/
theorem C10_pagination_empty_page_404 (store : List Ship) (skip limit : Nat)
    (h : store.length ≤ skip) :
    get_ships store skip limit = Except.error (404, "No ships found") := by
  unfold get_ships
  rw [List.drop_eq_nil_of_le h]
  simp

/-- Witness: the theorem of C10 applied to a non-empty store with the
skip equal to the store size. -/
theorem C10_pagination_empty_page_404_witness :
    get_ships [shipA] 1 1000 = Except.error (404, "No ships found") :=
  C10_pagination_empty_page_404 [shipA] 1 1000 (by decide)

end CarbonChain
